import Mathlib

/-!
Verification development for the Ai_WEB Flask application (app.py).
Python strings are modelled as lists of characters, handlers as pure
functions from their inputs (request fields, session, database rows,
and the outcome of the delegated external call) to a response and the
updated state.
-/

namespace AiWeb

/-- A Python string, modelled as its list of characters. -/
abbrev PyStr := List Char

/-- The backquote character (code point 96) used by Markdown code fences. -/
def backquote : Char := Char.ofNat 96

/-- The bare code-fence marker: three backquotes. -/
def fence : PyStr := [backquote, backquote, backquote]

/-- The marker removed first by clean_ai_text: a fence followed by "html". -/
def fenceHtml : PyStr := fence ++ ['h', 't', 'm', 'l']

/-- The marker removed second by clean_ai_text: a fence followed by "json". -/
def fenceJson : PyStr := fence ++ ['j', 's', 'o', 'n']

/-- Fuel-indexed scanner behind removeAll; with fuel at least the length of
the scanned list it deletes every non-overlapping occurrence of pat,
scanning left to right, exactly as Python s.replace(pat, "") does. -/
def removeAllAux (pat : PyStr) : Nat → PyStr → PyStr
  | _, [] => []
  | 0, l => l
  | fuel + 1, c :: rest =>
    if 0 < pat.length ∧ pat.isPrefixOf (c :: rest) then
      removeAllAux pat fuel (rest.drop (pat.length - 1))
    else
      c :: removeAllAux pat fuel rest

/-- Python s.replace(pat, "") for a nonempty pat: deletes every
non-overlapping occurrence of pat, scanning left to right. -/
def removeAll (pat l : PyStr) : PyStr := removeAllAux pat l.length l

/-- The whitespace characters removed by Python str.strip. -/
def pySpace (c : Char) : Bool :=
  c == Char.ofNat 32 || c == Char.ofNat 9 || c == Char.ofNat 10 ||
    c == Char.ofNat 13 || c == Char.ofNat 11 || c == Char.ofNat 12

/-- Python str.strip(): remove leading and trailing whitespace. -/
def pyStrip (l : PyStr) : PyStr :=
  List.rdropWhile pySpace (List.dropWhile pySpace l)

/-- The helper clean_ai_text from app.py: the empty (falsy) string maps to
the empty string; otherwise the fenceHtml, fenceJson and fence markers are
deleted in that order and the result is stripped of surrounding whitespace. -/
def clean_ai_text (l : PyStr) : PyStr :=
  if l = [] then []
  else pyStrip (removeAll fence (removeAll fenceJson (removeAll fenceHtml l)))

theorem removeAllAux_fuel_irrel (pat : PyStr) :
    ∀ f₁ : Nat, ∀ l : PyStr, ∀ f₂ : Nat, l.length ≤ f₁ → l.length ≤ f₂ →
      removeAllAux pat f₁ l = removeAllAux pat f₂ l := by
  intro f₁
  induction f₁ with
  | zero =>
    intro l f₂ h₁ _
    have : l = [] := List.eq_nil_of_length_eq_zero (Nat.le_zero.mp h₁)
    subst this
    cases f₂ <;> rfl
  | succ f ih =>
    intro l f₂ h₁ h₂
    cases l with
    | nil => cases f₂ <;> rfl
    | cons c rest =>
      cases f₂ with
      | zero => simp at h₂
      | succ f' =>
        simp only [removeAllAux]
        by_cases hc : 0 < pat.length ∧ pat.isPrefixOf (c :: rest)
        · simp only [if_pos hc]
          have hlen : (rest.drop (pat.length - 1)).length ≤ rest.length := by
            simp only [List.length_drop]; omega
          have h₁' : (rest.drop (pat.length - 1)).length ≤ f := by
            simp only [List.length_cons] at h₁; omega
          have h₂' : (rest.drop (pat.length - 1)).length ≤ f' := by
            simp only [List.length_cons] at h₂; omega
          exact ih _ f' h₁' h₂'
        · simp only [if_neg hc]
          have h₁' : rest.length ≤ f := by simp only [List.length_cons] at h₁; omega
          have h₂' : rest.length ≤ f' := by simp only [List.length_cons] at h₂; omega
          exact congrArg (c :: ·) (ih _ f' h₁' h₂')

theorem removeAll_nil (pat : PyStr) : removeAll pat [] = [] := rfl

theorem removeAll_cons_pos (pat : PyStr) (c : Char) (rest : PyStr)
    (h : 0 < pat.length ∧ pat.isPrefixOf (c :: rest)) :
    removeAll pat (c :: rest) = removeAll pat (rest.drop (pat.length - 1)) := by
  show removeAllAux pat (rest.length + 1) (c :: rest) = _
  simp only [removeAllAux, if_pos h]
  exact removeAllAux_fuel_irrel pat rest.length _ _
    (by simp only [List.length_drop]; omega) (Nat.le_refl _)

theorem removeAll_cons_neg (pat : PyStr) (c : Char) (rest : PyStr)
    (h : ¬ (0 < pat.length ∧ pat.isPrefixOf (c :: rest))) :
    removeAll pat (c :: rest) = c :: removeAll pat rest := by
  show removeAllAux pat (rest.length + 1) (c :: rest) = _
  simp only [removeAllAux, if_neg h]
  rfl

example : removeAll fence ((fence ++ fence) ++ ['a'] ++ fence) = ['a'] := by decide
example : clean_ai_text (' ' :: (fenceHtml ++ ['h', 'i'] ++ fence)) = ['h', 'i'] := by decide

/-- A row of the user table: exactly the columns the User model declares. -/
structure UserRow where
  id : Nat
  username : String
  password_hash : String
deriving DecidableEq

/-- A row of the activity_log table. -/
structure LogRow where
  id : Nat
  user_id : Option Nat
  activity_type : String
  details : String
  timestamp : Nat
deriving DecidableEq

/-- One message of the rolling chat history kept in the session. -/
structure ChatMsg where
  role : String
  content : String
deriving DecidableEq

/-- The Flask session keys the application uses; an absent is_admin key
reads as false and an absent chat_history key reads as the empty list,
matching session.get defaults. -/
structure Session where
  user_name : Option String
  is_admin : Bool
  chat_history : List ChatMsg
deriving DecidableEq

/-- The JSON body and HTTP status a handler returns. -/
structure JsonResp where
  status : Nat
  success : Bool
  error : Option String
  content : Option String
deriving DecidableEq

/-- The /login handler. The werkzeug hash check is the delegated external
operation, passed in as checkHash; the user branch resolves the username
against the user table and, on a wrong pair, answers 401 leaving the
session untouched. The successful user branch also logs an activity row,
omitted here as it does not touch the session or the response. -/
def login (checkHash : String → String → Bool) (adminUser adminPass : String)
    (db : List UserRow) (username password role : String) (s : Session) :
    JsonResp × Session :=
  if role = "admin" then
    if username = adminUser ∧ password = adminPass then
      (⟨200, true, none, none⟩, { s with is_admin := true, user_name := some "Administrator" })
    else
      (⟨401, false, some "Invalid Admin Credentials", none⟩, s)
  else
    match db.find? (fun u => u.username == username) with
    | some u =>
      if checkHash u.password_hash password then
        (⟨200, true, none, none⟩, { s with user_name := some u.username, is_admin := false })
      else (⟨401, false, some "Invalid Username or Password", none⟩, s)
    | none => (⟨401, false, some "Invalid Username or Password", none⟩, s)

/-- The /register handler. An empty (falsy) username or password fails the
first guard; queryOk false models the except branch in which the existence
query raises, tables are recreated and the insert proceeds; commitOk false
models a raising commit, answered with 500 and the exception text. -/
def register (hashPw : String → String) (commitErr : String) (db : List UserRow)
    (queryOk commitOk : Bool) (username password : String) :
    JsonResp × List UserRow :=
  if username = "" ∨ password = "" then
    (⟨400, false, some "Username and password required", none⟩, db)
  else if queryOk ∧ db.any (fun u => u.username == username) then
    (⟨400, false, some "Username already taken", none⟩, db)
  else if commitOk then
    (⟨200, true, none, none⟩, db ++ [⟨db.length, username, hashPw password⟩])
  else
    (⟨500, false, some commitErr, none⟩, db)

/-- The in-memory global_stats dictionary with its initial value. -/
def global_stats_init : List (String × Nat) :=
  [("text_gen", 0), ("audio_gen", 0), ("transcribe", 0), ("pdf_gen", 0),
   ("chat_msgs", 0), ("code_review", 0), ("quiz_gen", 0),
   ("file_conv", 0), ("compression", 0), ("vid_audio", 0)]

/-- Pointwise increment of the entries matching a key. -/
def bumpEntries (stats : List (String × Nat)) (k : String) :
    List (String × Nat) :=
  stats.map (fun p => if p.1 == k then (p.1, p.2 + 1) else p)

/-- The stats update performed by log_activity: the counter is bumped only
when the key is already present in the dictionary. -/
def bumpStat (stats : List (String × Nat)) (activity_type : String) :
    List (String × Nat) :=
  if stats.any (fun p => p.1 == activity_type) then bumpEntries stats activity_type
  else stats

/-- Reading one counter of the stats dictionary. -/
def lookupStat (stats : List (String × Nat)) (k : String) : Option Nat :=
  (stats.find? (fun p => p.1 == k)).map (fun p => p.2)

/-- The user_id resolution inside log_activity: a logged-in name other than
Administrator is resolved against the user table. -/
def resolveUid (db : List UserRow) (s : Session) : Option Nat :=
  match s.user_name with
  | none => none
  | some n =>
    if n = "Administrator" then none
    else (db.find? (fun u => u.username == n)).map (fun u => u.id)

/-- log_activity: bump the in-memory counter and append a permanent
ActivityLog row for the acting user. -/
def log_activity (db : List UserRow) (s : Session) (stats : List (String × Nat))
    (logs : List LogRow) (activity_type details : String) (now : Nat) :
    List (String × Nat) × List LogRow :=
  (bumpStat stats activity_type,
   logs ++ [⟨logs.length, resolveUid db s, activity_type, details, now⟩])

/-- Metadata of one entry of the shared static directory as the sweep
observes it. -/
structure FileEntry where
  name : String
  isFile : Bool
  mtime : Int
deriving DecidableEq

/-- cleanup_old_files: delete every regular file whose modification time is
more than 1800 seconds in the past, leaving everything else in place. -/
def cleanup_old_files (now : Int) (files : List FileEntry) : List FileEntry :=
  files.filter (fun f => ! (f.isFile && decide (1800 < now - f.mtime)))

/-- The response of /api/stats. -/
structure StatsResp where
  status : Nat
  cpu : Int
  ram : Int
  usage : List (String × Nat)
deriving DecidableEq

/-- /api/stats: cpu and ram start at 0 and are only overwritten for an
admin session whose psutil readings succeed (sysReading none models a
raising psutil call); the usage field is always the whole stats map. -/
def get_stats (s : Session) (stats : List (String × Nat))
    (sysReading : Option (Int × Int)) : StatsResp :=
  if s.is_admin then
    match sysReading with
    | some cr => ⟨200, cr.1, cr.2, stats⟩
    | none => ⟨200, 0, 0, stats⟩
  else ⟨200, 0, 0, stats⟩

/-- The history update performed by /chat after a successful completion
call: append the user message and the assistant reply, then keep only the
last 6 entries when more than 6 are present. -/
def chat_history_update (history : List ChatMsg) (msg reply : String) :
    List ChatMsg :=
  let h := history ++ [⟨"user", msg⟩, ⟨"assistant", reply⟩]
  if 6 < h.length then h.drop (h.length - 6) else h

/-- The /chat handler: the completion call is the delegated external
operation; on success the capped history is stored back in the session, on
an exception the handler answers 500 with success false, leaving the
session untouched. -/
def chat (s : Session) (msg : String) (apiResult : Except String String) :
    JsonResp × Session :=
  match apiResult with
  | .ok reply =>
    (⟨200, true, none, some reply⟩,
     { s with chat_history := chat_history_update s.chat_history msg reply })
  | .error e => (⟨500, false, some e, none⟩, s)

/-- get_groq_response: a missing API key or a raising completion call is
converted into an in-band error string returned as the function value. -/
def get_groq_response (apiKey : Option String)
    (completionResult : Except String String) : String :=
  match apiKey with
  | none => "Error: GROQ_API_KEY not found in .env file."
  | some _ =>
    match completionResult with
    | .ok content => content
    | .error e => "AI Service Error: " ++ e

/-- /generate-minutes: the notes are forwarded to get_groq_response and the
answer is returned with success true unconditionally. -/
def generate_minutes (apiKey : Option String) (notes : String)
    (completionResult : Except String String) : JsonResp :=
  ⟨200, true, none, some (get_groq_response apiKey completionResult)⟩

/-- /generate-email: recipient and topic form the prompt forwarded to
get_groq_response; the answer is returned with success true
unconditionally. -/
def generate_email (apiKey : Option String) (recipient topic : String)
    (completionResult : Except String String) : JsonResp :=
  ⟨200, true, none, some (get_groq_response apiKey completionResult)⟩

/-- /review-code: the code is forwarded to get_groq_response and the answer
is returned with success true unconditionally. -/
def review_code (apiKey : Option String) (code : String)
    (completionResult : Except String String) : JsonResp :=
  ⟨200, true, none, some (get_groq_response apiKey completionResult)⟩

/-- /translate: the text and target language form the prompt forwarded to
get_groq_response; the answer is returned with success true
unconditionally. -/
def translate (apiKey : Option String) (target text : String)
    (completionResult : Except String String) : JsonResp :=
  ⟨200, true, none, some (get_groq_response apiKey completionResult)⟩

/-- A JSON-serialisable Python value. -/
inductive PyVal
  | vint (n : Int)
  | vstr (s : String)
  | vnull
deriving DecidableEq

/-- Attribute lookup on a User row: exactly the attributes the User model
declares (the three columns and the activities relationship, whose value is
immaterial here); any other attribute raises AttributeError, modelled as
none. -/
def userGetattr (u : UserRow) (attr : String) : Option PyVal :=
  if attr = "id" then some (.vint u.id)
  else if attr = "username" then some (.vstr u.username)
  else if attr = "password_hash" then some (.vstr u.password_hash)
  else if attr = "activities" then some .vnull
  else none

/-- The dict built for one user row by /api/users. The last_seen and
action_count queries are computed from the log table; reading full_name and
department goes through attribute lookup, which fails because the User
model declares no such columns. -/
def serializeUser (logs : List LogRow) (u : UserRow) :
    Except String (List (String × PyVal)) :=
  let user_logs := logs.filter (fun g => g.user_id == some u.id)
  let last_seen : PyVal :=
    match (user_logs.map (fun g => g.timestamp)).max? with
    | some t => .vint t
    | none => .vstr "Never"
  let action_count := user_logs.length
  match userGetattr u "full_name" with
  | none => .error "AttributeError: full_name"
  | some fn =>
    match userGetattr u "department" with
    | none => .error "AttributeError: department"
    | some dep =>
      .ok [("id", .vint u.id), ("username", .vstr u.username), ("full_name", fn),
           ("department", dep), ("last_seen", last_seen),
           ("action_count", .vint action_count)]

/-- The per-user loop of /api/users: the first raised exception aborts the
whole loop. -/
def serializeUsers (logs : List LogRow) :
    List UserRow → Except String (List (List (String × PyVal)))
  | [] => .ok []
  | u :: rest =>
    match serializeUser logs u with
    | .error e => .error e
    | .ok d =>
      match serializeUsers logs rest with
      | .error e => .error e
      | .ok ds => .ok (d :: ds)

/-- The body of an admin JSON API response. -/
inductive ApiBody
  | rows (data : List (List (String × PyVal)))
  | err (msg : String)
deriving DecidableEq

/-- Status and body of an admin JSON API response. -/
structure ApiResp where
  status : Nat
  body : ApiBody
deriving DecidableEq

/-- /api/users: 403 for a non-admin session; otherwise every user row is
serialised, the raised AttributeError becoming a 500 with the error text. -/
def get_users_list (s : Session) (db : List UserRow) (logs : List LogRow) :
    ApiResp :=
  if ¬ s.is_admin then ⟨403, .err "Unauthorized"⟩
  else
    match serializeUsers logs db with
    | .ok d => ⟨200, .rows d⟩
    | .error e => ⟨500, .err e⟩

/-- The dict built for one log row by /api/activity-logs; a row without a
resolvable user is shown as Admin/Guest. -/
def serializeLog (db : List UserRow) (g : LogRow) : List (String × PyVal) :=
  let username : PyVal :=
    match g.user_id with
    | none => .vstr "Admin/Guest"
    | some uid =>
      match db.find? (fun u => u.id == uid) with
      | some u => .vstr u.username
      | none => .vstr "Admin/Guest"
  [("date", .vint g.timestamp), ("user", username),
   ("action", .vstr g.activity_type), ("details", .vstr g.details)]

/-- /api/activity-logs: 403 for a non-admin session, otherwise the last 100
rows newest first. -/
def get_activity_logs_json (s : Session) (db : List UserRow)
    (logs : List LogRow) : ApiResp :=
  if ¬ s.is_admin then ⟨403, .err "Unauthorized"⟩
  else
    ⟨200, .rows (((logs.mergeSort (fun a b => decide (b.timestamp ≤ a.timestamp))).take 100).map
      (serializeLog db))⟩

/-- The body of /download-report; the plain-text rendering is abstracted to
the data it displays. -/
inductive ReportBody
  | unauthorized
  | report (usage : List (String × Nat)) (logs : List LogRow)
deriving DecidableEq

/-- /download-report: the plain string Unauthorized with status 401 for a
non-admin session; otherwise a plain-text report over the usage counters
and the last 100 log rows. -/
def download_report (s : Session) (stats : List (String × Nat))
    (logs : List LogRow) : Nat × ReportBody :=
  if ¬ s.is_admin then (401, .unauthorized)
  else
    (200, .report stats ((logs.mergeSort (fun a b => decide (b.timestamp ≤ a.timestamp))).take 100))

theorem fence_prefix_of_isPrefixOf (c : Char) (rest : PyStr)
    (hp : fence.isPrefixOf (c :: rest) = true) :
    backquote = c ∧ [backquote, backquote] <+: rest := by
  have h := List.isPrefixOf_iff_prefix.mp hp
  simpa [fence, List.cons_prefix_cons] using h

theorem removeAll_head_not (l : PyStr) (h : l.head? ≠ some backquote) :
    (removeAll fence l).head? ≠ some backquote := by
  cases l with
  | nil => rw [removeAll_nil]; exact h
  | cons c rest =>
    have hc : c ≠ backquote := by simpa using h
    have hnp : ¬ (0 < fence.length ∧ fence.isPrefixOf (c :: rest)) := by
      rintro ⟨-, hp⟩
      exact hc (fence_prefix_of_isPrefixOf c rest hp).1.symm
    rw [removeAll_cons_neg _ _ _ hnp]
    simpa using hc

theorem removeAll_bb_not (l : PyStr) (h : ¬ [backquote, backquote] <+: l) :
    ¬ [backquote, backquote] <+: removeAll fence l := by
  cases l with
  | nil => rw [removeAll_nil]; exact h
  | cons c rest =>
    have hnp : ¬ (0 < fence.length ∧ fence.isPrefixOf (c :: rest)) := by
      rintro ⟨-, hp⟩
      exact h (List.IsPrefix.trans (⟨[backquote], rfl⟩ : [backquote, backquote] <+: fence)
        (List.isPrefixOf_iff_prefix.mp hp))
    rw [removeAll_cons_neg _ _ _ hnp]
    intro hbb
    rw [List.cons_prefix_cons] at hbb
    obtain ⟨rfl, h1⟩ := hbb
    have hrest : rest.head? ≠ some backquote := by
      intro hh
      apply h
      cases rest with
      | nil => simp at hh
      | cons d t =>
        have hd : d = backquote := by simpa using hh
        subst hd
        simp [List.cons_prefix_cons]
    obtain ⟨t, ht⟩ := h1
    exact removeAll_head_not rest hrest (by rw [← ht]; rfl)

theorem removeAll_fence_no_fence_aux :
    ∀ n : Nat, ∀ l : PyStr, l.length ≤ n → ¬ fence <:+: removeAll fence l := by
  intro n
  induction n with
  | zero =>
    intro l h
    have : l = [] := List.eq_nil_of_length_eq_zero (Nat.le_zero.mp h)
    subst this
    rw [removeAll_nil]
    simp [fence]
  | succ n ih =>
    intro l hl
    cases l with
    | nil =>
      rw [removeAll_nil]
      simp [fence]
    | cons c rest =>
      by_cases hc : 0 < fence.length ∧ fence.isPrefixOf (c :: rest)
      · rw [removeAll_cons_pos _ _ _ hc]
        apply ih
        simp only [List.length_drop, List.length_cons] at hl ⊢
        omega
      · rw [removeAll_cons_neg _ _ _ hc]
        intro hinf
        rcases List.infix_cons_iff.mp hinf with hpre | hinf2
        · have hsplit : backquote = c ∧ [backquote, backquote] <+: removeAll fence rest := by
            simpa [fence, List.cons_prefix_cons] using hpre
          obtain ⟨rfl, hbb⟩ := hsplit
          have hnrest : ¬ [backquote, backquote] <+: rest := by
            intro hr
            apply hc
            refine ⟨by simp [fence], ?_⟩
            rw [List.isPrefixOf_iff_prefix]
            show fence <+: backquote :: rest
            simpa [fence, List.cons_prefix_cons] using hr
          exact removeAll_bb_not rest hnrest hbb
        · exact ih rest (by simp only [List.length_cons] at hl; omega) hinf2

theorem no_fence_infix_removeAll (l : PyStr) : ¬ fence <:+: removeAll fence l :=
  removeAll_fence_no_fence_aux l.length l (Nat.le_refl _)

theorem removeAll_eq_self (pat l : PyStr) (hpat : fence <+: pat)
    (h : ¬ fence <:+: l) : removeAll pat l = l := by
  induction l with
  | nil => exact removeAll_nil pat
  | cons c rest ih =>
    have hnp : ¬ (0 < pat.length ∧ pat.isPrefixOf (c :: rest)) := by
      rintro ⟨-, hp⟩
      exact h (List.IsPrefix.isInfix (hpat.trans (List.isPrefixOf_iff_prefix.mp hp)))
    rw [removeAll_cons_neg _ _ _ hnp]
    rw [ih (fun hi => h (hi.trans (List.infix_cons_iff.mpr (Or.inr List.infix_rfl))))]

theorem pyStrip_isInfix (l : PyStr) : pyStrip l <:+: l :=
  List.IsInfix.trans
    (List.IsPrefix.isInfix ( List.rdropWhile_prefix pySpace (List.dropWhile pySpace l)))
    (List.IsSuffix.isInfix (List.dropWhile_suffix pySpace))

theorem pyStrip_idem (l : PyStr) : pyStrip (pyStrip l) = pyStrip l := by
  show List.rdropWhile pySpace (List.dropWhile pySpace (pyStrip l)) = pyStrip l
  have h1 : List.dropWhile pySpace (pyStrip l) = pyStrip l := by
    rcases hS : pyStrip l with _ | ⟨a, t⟩
    · rfl
    · have hpre : a :: t <+: List.dropWhile pySpace l := by
        rw [← hS]
        exact List.rdropWhile_prefix pySpace (List.dropWhile pySpace l)
      obtain ⟨r, hr⟩ := hpre
      have hDD : List.dropWhile pySpace (List.dropWhile pySpace l) = List.dropWhile pySpace l :=
        List.dropWhile_idempotent pySpace l
      rw [← hr] at hDD
      have hpa : ¬ pySpace a := by
        have := List.dropWhile_eq_self_iff.mp hDD
        simpa using this (by simp)
      rw [List.dropWhile_cons, if_neg hpa]
  rw [h1]
  exact List.rdropWhile_idempotent pySpace (List.dropWhile pySpace l)

theorem clean_ai_text_of_ne_nil (l : PyStr) (h : l ≠ []) :
    clean_ai_text l
      = pyStrip (removeAll fence (removeAll fenceJson (removeAll fenceHtml l))) := by
  rw [clean_ai_text, if_neg h]

/-- C8: the post-processing function clean_ai_text is idempotent: its output
contains no code-fence marker (hence none of the removed substrings) and is
already whitespace-stripped, so cleaning a second time changes nothing. -/
theorem clean_ai_text_idempotent (l : PyStr) :
    clean_ai_text (clean_ai_text l) = clean_ai_text l := by
  by_cases h0 : l = []
  · subst h0; rfl
  · have hx := clean_ai_text_of_ne_nil l h0
    have hnofence : ¬ fence <:+: clean_ai_text l := by
      rw [hx]
      intro hf
      exact no_fence_infix_removeAll _
        (hf.trans (pyStrip_isInfix (removeAll fence (removeAll fenceJson (removeAll fenceHtml l)))))
    by_cases h1 : clean_ai_text l = []
    · rw [h1]; rfl
    · rw [clean_ai_text_of_ne_nil (clean_ai_text l) h1]
      rw [removeAll_eq_self fenceHtml _ (List.prefix_append _ _) hnofence]
      rw [removeAll_eq_self fenceJson _ (List.prefix_append _ _) hnofence]
      rw [removeAll_eq_self fence _ List.prefix_rfl hnofence]
      rw [hx, pyStrip_idem]

/-- C1 counterexample: with a concrete non-admin session, /download-report
answers 401 and /api/stats answers 200, so not every admin-only endpoint
rejects a non-admin session with 403. -/
theorem admin_endpoints_403_cex :
    (download_report ⟨none, false, []⟩ [] []).1 = 401 ∧
    (get_stats ⟨none, false, []⟩ [] none).status = 200 ∧
    (download_report ⟨none, false, []⟩ [] []).1 ≠ 403 ∧
    (get_stats ⟨none, false, []⟩ [] none).status ≠ 403 := by
  refine ⟨rfl, rfl, by decide, by decide⟩

/-- C1 (amended): with a non-admin session, /api/users and
/api/activity-logs reject with 403, while /download-report rejects with a
plain 401 and /api/stats serves the request with 200. -/
theorem admin_endpoints_non_admin_status (s : Session) (db : List UserRow)
    (logs : List LogRow) (stats : List (String × Nat)) (r : Option (Int × Int))
    (h : s.is_admin = false) :
    (get_users_list s db logs).status = 403 ∧
    (get_activity_logs_json s db logs).status = 403 ∧
    (download_report s stats logs).1 = 401 ∧
    (get_stats s stats r).status = 200 := by
  refine ⟨?_, ?_, ?_, ?_⟩ <;>
    simp [get_users_list, get_activity_logs_json, download_report, get_stats, h]

theorem admin_endpoints_non_admin_status_witness :
    (get_users_list ⟨none, false, []⟩ [] []).status = 403 ∧
    (get_activity_logs_json ⟨none, false, []⟩ [] []).status = 403 ∧
    (download_report ⟨none, false, []⟩ [] []).1 = 401 ∧
    (get_stats ⟨none, false, []⟩ [] none).status = 200 :=
  admin_endpoints_non_admin_status ⟨none, false, []⟩ [] [] [] none rfl

/-- C2 counterexample: /generate-minutes with a failing completion call
still answers success true, not false. -/
theorem generate_minutes_error_success_cex :
    (generate_minutes (some "k") "notes" (Except.error "boom")).success = true ∧
    (generate_minutes (some "k") "notes" (Except.error "boom")).success ≠ false := by
  refine ⟨rfl, by decide⟩

/-- C2 (amended): the four text-generation endpoints answer success true
unconditionally, even when the completion call fails, the error text being
embedded in the content; only /chat answers success false with status 500
when its completion call raises. -/
theorem textgen_success_flag (k : Option String) (r : Except String String)
    (s : Session) (a b m e : String) :
    (generate_minutes k a r).success = true ∧
    (generate_email k a b r).success = true ∧
    (review_code k a r).success = true ∧
    (translate k a b r).success = true ∧
    (chat s m (Except.error e)).1.success = false ∧
    (chat s m (Except.error e)).1.status = 500 :=
  ⟨rfl, rfl, rfl, rfl, rfl, rfl⟩

theorem lookupStat_bumpEntries_self (k : String) :
    ∀ stats : List (String × Nat), ∀ v : Nat, lookupStat stats k = some v →
      lookupStat (bumpEntries stats k) k = some (v + 1) := by
  intro stats
  induction stats with
  | nil => intro v h; simp [lookupStat] at h
  | cons p rest ih =>
    intro v h
    by_cases hp : (p.1 == k) = true
    · simp [lookupStat, bumpEntries, List.find?, hp] at h ⊢
      omega
    · have hp' : (p.1 == k) = false := Bool.not_eq_true _ ▸ hp
      simp only [lookupStat, bumpEntries, List.map_cons, List.find?, hp',
        if_false, Bool.false_eq_true] at h ⊢
      exact ih v h

theorem lookupStat_bumpEntries_other (k k' : String) (hk : k' ≠ k) :
    ∀ stats : List (String × Nat),
      lookupStat (bumpEntries stats k) k' = lookupStat stats k' := by
  intro stats
  induction stats with
  | nil => rfl
  | cons p rest ih =>
    by_cases hp : (p.1 == k) = true
    · have hpk : p.1 = k := by simpa using hp
      have hp' : (p.1 == k') = false := by
        rw [hpk]
        exact beq_eq_false_iff_ne.mpr fun hh => hk hh.symm
      simp only [lookupStat, bumpEntries, List.map_cons, List.find?, hp, if_true,
        hp', Bool.false_eq_true] at ih ⊢
      exact ih
    · have hpf : (p.1 == k) = false := Bool.not_eq_true _ ▸ hp
      by_cases hp2 : (p.1 == k') = true
      · simp only [lookupStat, bumpEntries, List.map_cons, List.find?, hpf,
          if_false, Bool.false_eq_true, hp2]
      · have hp2f : (p.1 == k') = false := Bool.not_eq_true _ ▸ hp2
        simp only [lookupStat, bumpEntries, List.map_cons, List.find?, hpf,
          if_false, Bool.false_eq_true, hp2f] at ih ⊢
        exact ih

/-- C3 (confirmed): log_activity with a feature key present in the stats
dictionary increments exactly that counter by one and leaves every other
counter unchanged. -/
theorem log_activity_increments_exactly_one (db : List UserRow) (s : Session)
    (stats : List (String × Nat)) (logs : List LogRow) (k d : String)
    (now v : Nat) (hv : lookupStat stats k = some v) :
    lookupStat (log_activity db s stats logs k d now).1 k = some (v + 1) ∧
    ∀ k' : String, k' ≠ k →
      lookupStat (log_activity db s stats logs k d now).1 k' = lookupStat stats k' := by
  have hany : stats.any (fun p => p.1 == k) = true := by
    cases hfind : stats.find? (fun p => p.1 == k) with
    | none => rw [lookupStat, hfind] at hv; simp at hv
    | some e =>
      have hpe := List.find?_some hfind
      exact List.any_eq_true.mpr ⟨e, List.mem_of_find?_eq_some hfind, hpe⟩
  constructor
  · show lookupStat (bumpStat stats k) k = some (v + 1)
    rw [bumpStat, if_pos hany]
    exact lookupStat_bumpEntries_self k stats v hv
  · intro k' hk
    show lookupStat (bumpStat stats k) k' = lookupStat stats k'
    rw [bumpStat, if_pos hany]
    exact lookupStat_bumpEntries_other k k' hk stats

theorem log_activity_increments_exactly_one_witness :
    lookupStat
      (log_activity [] ⟨none, false, []⟩ global_stats_init [] "chat_msgs" "d" 0).1
      "chat_msgs" = some 1 ∧
    ∀ k' : String, k' ≠ "chat_msgs" →
      lookupStat
        (log_activity [] ⟨none, false, []⟩ global_stats_init [] "chat_msgs" "d" 0).1 k'
        = lookupStat global_stats_init k' :=
  log_activity_increments_exactly_one [] ⟨none, false, []⟩ global_stats_init []
    "chat_msgs" "d" 0 0 (by decide)

/-- C4 (confirmed): the sweep deletes exactly the regular files whose
modification time lies more than 1800 seconds in the past, and keeps every
entry that is at most 1800 seconds old or not a regular file. -/
theorem cleanup_old_files_deletes_exactly_old (now : Int) (files : List FileEntry)
    (f : FileEntry) (hf : f ∈ files) :
    (f.isFile = true ∧ 1800 < now - f.mtime → f ∉ cleanup_old_files now files) ∧
    ((f.isFile = true → now - f.mtime ≤ 1800) → f ∈ cleanup_old_files now files) := by
  constructor
  · rintro ⟨h1, h2⟩ hmem
    have hkeep := (List.mem_filter.mp hmem).2
    rw [h1] at hkeep
    simp [h2] at hkeep
  · intro h
    refine List.mem_filter.mpr ⟨hf, ?_⟩
    by_cases hb : f.isFile = true
    · have hage := h hb
      simp [hb]
      omega
    · have hb' : f.isFile = false := Bool.not_eq_true _ ▸ hb
      simp [hb']

theorem cleanup_old_files_deletes_exactly_old_witness :
    ((⟨"old", true, 0⟩ : FileEntry)
        ∉ cleanup_old_files 2000 [⟨"old", true, 0⟩, ⟨"new", true, 1000⟩]) ∧
    ((⟨"new", true, 1000⟩ : FileEntry)
        ∈ cleanup_old_files 2000 [⟨"old", true, 0⟩, ⟨"new", true, 1000⟩]) :=
  ⟨(cleanup_old_files_deletes_exactly_old 2000
      [⟨"old", true, 0⟩, ⟨"new", true, 1000⟩] ⟨"old", true, 0⟩ (by decide)).1
      (by decide),
   (cleanup_old_files_deletes_exactly_old 2000
      [⟨"old", true, 0⟩, ⟨"new", true, 1000⟩] ⟨"new", true, 1000⟩ (by decide)).2
      (by decide)⟩

/-- C5 (confirmed): after a successful /chat call the stored history has at
most 6 messages and is a suffix of the whole conversation, so the oldest
entries are dropped first. -/
theorem chat_history_capped (s : Session) (msg reply : String) :
    ((chat s msg (Except.ok reply)).2.chat_history).length ≤ 6 ∧
    (chat s msg (Except.ok reply)).2.chat_history
      <:+ s.chat_history ++ [⟨"user", msg⟩, ⟨"assistant", reply⟩] := by
  show (chat_history_update s.chat_history msg reply).length ≤ 6 ∧
    chat_history_update s.chat_history msg reply <:+ _
  simp only [chat_history_update]
  split
  · constructor
    · rw [List.length_drop]
      omega
    · exact List.drop_suffix _ _
  · next hlen =>
    refine ⟨?_, List.suffix_rfl⟩
    omega

/-- C6 counterexample: with the user alice present, a register request for
alice with an empty (falsy) password fails the required-fields guard, so
the error message is not Username already taken. -/
theorem register_empty_password_cex :
    ([(⟨0, "alice", "h"⟩ : UserRow)].any (fun u => u.username == "alice") = true) ∧
    (register (fun p => p) "e" [⟨0, "alice", "h"⟩] true true "alice" "").1.status = 400 ∧
    (register (fun p => p) "e" [⟨0, "alice", "h"⟩] true true "alice" "").1.error
      = some "Username and password required" ∧
    (register (fun p => p) "e" [⟨0, "alice", "h"⟩] true true "alice" "").1.error
      ≠ some "Username already taken" := by
  refine ⟨by decide, rfl, rfl, by decide⟩

/-- C6 (amended): for a register request with non-empty username and
password whose username already belongs to an existing user (the existence
query succeeding), the endpoint answers 400 with Username already taken and
adds no user row. -/
theorem register_existing_username_taken (hashPw : String → String)
    (commitErr : String) (db : List UserRow) (commitOk : Bool)
    (username password : String) (hu : username ≠ "") (hp : password ≠ "")
    (hex : db.any (fun u => u.username == username) = true) :
    (register hashPw commitErr db true commitOk username password).1.status = 400 ∧
    (register hashPw commitErr db true commitOk username password).1.error
      = some "Username already taken" ∧
    (register hashPw commitErr db true commitOk username password).2 = db := by
  have hguard : ¬ (username = "" ∨ password = "") := by tauto
  unfold register
  rw [if_neg hguard, if_pos ⟨rfl, hex⟩]
  exact ⟨rfl, rfl, rfl⟩

theorem register_existing_username_taken_witness :
    (register (fun p => p) "e" [⟨0, "alice", "h"⟩] true true "alice" "pw").1.status = 400 ∧
    (register (fun p => p) "e" [⟨0, "alice", "h"⟩] true true "alice" "pw").1.error
      = some "Username already taken" ∧
    (register (fun p => p) "e" [⟨0, "alice", "h"⟩] true true "alice" "pw").2
      = [⟨0, "alice", "h"⟩] :=
  register_existing_username_taken (fun p => p) "e" [⟨0, "alice", "h"⟩] true
    "alice" "pw" (by decide) (by decide) (by decide)

/-- C7 (confirmed): a login request with a wrong password, whether against
the configured admin credentials in the admin branch or against every
stored user in the user branch, answers 401 with success false and leaves
the session unchanged. -/
theorem login_wrong_password_rejected (checkHash : String → String → Bool)
    (adminUser adminPass : String) (db : List UserRow)
    (username password role : String) (s : Session)
    (h : (role = "admin" ∧ ¬ (username = adminUser ∧ password = adminPass)) ∨
      (role ≠ "admin" ∧
        ∀ u ∈ db, u.username = username → checkHash u.password_hash password = false)) :
    (login checkHash adminUser adminPass db username password role s).1.status = 401 ∧
    (login checkHash adminUser adminPass db username password role s).1.success = false ∧
    (login checkHash adminUser adminPass db username password role s).2 = s := by
  rcases h with ⟨hrole, hcred⟩ | ⟨hrole, hcheck⟩
  · unfold login
    rw [if_pos hrole, if_neg hcred]
    exact ⟨rfl, rfl, rfl⟩
  · unfold login
    rw [if_neg hrole]
    rcases hfind : db.find? (fun u => u.username == username) with - | u
    · rw [hfind]
      exact ⟨rfl, rfl, rfl⟩
    · have hmem := List.mem_of_find?_eq_some hfind
      have hname : u.username = username := by
        have := List.find?_some hfind
        simpa using this
      rw [hfind]
      have hc := hcheck u hmem hname
      simp [hc]

theorem login_wrong_password_rejected_witness :
    (login (fun _ _ => false) "admin" "admin123" [⟨0, "alice", "h"⟩]
      "alice" "pw" "user" ⟨none, false, []⟩).1.status = 401 ∧
    (login (fun _ _ => false) "admin" "admin123" [⟨0, "alice", "h"⟩]
      "alice" "pw" "user" ⟨none, false, []⟩).1.success = false ∧
    (login (fun _ _ => false) "admin" "admin123" [⟨0, "alice", "h"⟩]
      "alice" "pw" "user" ⟨none, false, []⟩).2 = ⟨none, false, []⟩ :=
  login_wrong_password_rejected (fun _ _ => false) "admin" "admin123"
    [⟨0, "alice", "h"⟩] "alice" "pw" "user" ⟨none, false, []⟩
    (Or.inr ⟨by decide, fun u _ _ => rfl⟩)

/-- C9 (confirmed): for an admin session and a non-empty user table,
/api/users answers 500 with an AttributeError body, because the per-user
loop reads the full_name and department attributes that the User model
does not declare. -/
theorem get_users_list_raises_with_users (s : Session) (db : List UserRow)
    (logs : List LogRow) (hadmin : s.is_admin = true) (hne : db ≠ []) :
    (get_users_list s db logs).status = 500 ∧
    (get_users_list s db logs).body = .err "AttributeError: full_name" := by
  rcases db with - | ⟨u, rest⟩
  · exact absurd rfl hne
  · have hattr : userGetattr u "full_name" = none := by
      simp [userGetattr]
    have hone : serializeUser logs u = .error "AttributeError: full_name" := by
      simp only [serializeUser, hattr]
    have hser : serializeUsers logs (u :: rest) = .error "AttributeError: full_name" := by
      simp only [serializeUsers, hone]
    unfold get_users_list
    rw [if_neg (by simp [hadmin]), hser]
    exact ⟨rfl, rfl⟩

theorem get_users_list_raises_with_users_witness :
    (get_users_list ⟨some "Administrator", true, []⟩ [⟨0, "alice", "h"⟩] []).status = 500 ∧
    (get_users_list ⟨some "Administrator", true, []⟩ [⟨0, "alice", "h"⟩] []).body
      = .err "AttributeError: full_name" :=
  get_users_list_raises_with_users ⟨some "Administrator", true, []⟩
    [⟨0, "alice", "h"⟩] [] rfl (by simp)

/-- C10 (confirmed): the usage field of /api/stats is the stats map itself
for any session and any psutil reading, so it never depends on the admin
flag, and a non-admin session always gets cpu 0 and ram 0. -/
theorem get_stats_usage_independent (s₁ s₂ : Session)
    (stats : List (String × Nat)) (r₁ r₂ : Option (Int × Int)) :
    (get_stats s₁ stats r₁).usage = (get_stats s₂ stats r₂).usage ∧
    (s₁.is_admin = false →
      (get_stats s₁ stats r₁).cpu = 0 ∧ (get_stats s₁ stats r₁).ram = 0) := by
  constructor
  · cases h₁ : s₁.is_admin <;> cases h₂ : s₂.is_admin <;>
      cases r₁ <;> cases r₂ <;> simp [get_stats, h₁, h₂]
  · intro h
    simp [get_stats, h]

theorem get_stats_usage_independent_witness :
    ((get_stats ⟨none, false, []⟩ global_stats_init none).usage
      = (get_stats ⟨some "Administrator", true, []⟩ global_stats_init
          (some (50, 60))).usage) ∧
    ((⟨none, false, []⟩ : Session).is_admin = false →
      (get_stats ⟨none, false, []⟩ global_stats_init none).cpu = 0 ∧
      (get_stats ⟨none, false, []⟩ global_stats_init none).ram = 0) :=
  get_stats_usage_independent ⟨none, false, []⟩ ⟨some "Administrator", true, []⟩
    global_stats_init none (some (50, 60))

end AiWeb
